import Mathlib

/-!
Shallow embedding of the toysim-rs toy CPU and its two-pass assembler
(src/assembler.rs, src/cpu.rs, src/memory.rs), with theorems checking the
natural-language specification against the code.

Bytes are modelled as `Nat` with explicit `% 256` where the Rust `u8`
semantics wrap; the assembler works over `List Char`, mirroring the Rust
string operations; fallible code returns `Except String`.
-/

namespace ToySim

/-- Decimal digit characters of `n`, most significant first; `fuel`-driven
structural recursion (callers pass `n + 1`, always enough). Mirrors the
rendering of `{}` for integers in Rust `format!`. -/
def natReprCore : Nat → Nat → List Char
  | 0, _ => []
  | fuel + 1, n =>
    if n < 10 then [Char.ofNat (48 + n)]
    else natReprCore fuel (n / 10) ++ [Char.ofNat (48 + n % 10)]

/-- Decimal rendering of a natural number, as Rust `format!("{}", n)`. -/
def natRepr (n : Nat) : String := String.mk (natReprCore (n + 1) n)

/-- Trim ASCII whitespace from both ends, as Rust `str::trim` on ASCII input. -/
def trimL (cs : List Char) : List Char :=
  ((cs.dropWhile Char.isWhitespace).reverse.dropWhile Char.isWhitespace).reverse

/-- Single-quote string used by the Rust error messages (written via its
character code). -/
def sq : String := String.mk [Char.ofNat 39]

/-- Split at every occurrence of `sep`, keeping empty pieces, accumulator in
reverse; mirrors Rust `str::split(sep)`. -/
def splitOnCharAux (sep : Char) : List Char → List Char → List (List Char)
  | [], cur => [cur.reverse]
  | c :: rest, cur =>
    if c = sep then cur.reverse :: splitOnCharAux sep rest []
    else splitOnCharAux sep rest (c :: cur)

/-- Split at every occurrence of `sep`, keeping empty pieces. -/
def splitOnChar (sep : Char) (cs : List Char) : List (List Char) :=
  splitOnCharAux sep cs []

/-- Split on whitespace runs, dropping empty pieces; mirrors Rust
`str::split_whitespace`. -/
def splitWsAux : List Char → List Char → List (List Char)
  | [], cur => if cur = [] then [] else [cur.reverse]
  | c :: rest, cur =>
    if c.isWhitespace then
      if cur = [] then splitWsAux rest [] else cur.reverse :: splitWsAux rest []
    else splitWsAux rest (c :: cur)

/-- Split on whitespace runs, dropping empty pieces. -/
def splitWs (cs : List Char) : List (List Char) := splitWsAux cs []

/-- Drop one trailing carriage return, as Rust `str::lines` does per line. -/
def stripCR (cs : List Char) : List Char :=
  if cs.getLast? = some '\r' then cs.dropLast else cs

/-- Mirror of Rust `str::lines`: split on newline, a trailing newline does not
produce a final empty line, and a trailing `\r` is stripped from each line. -/
def rustLines (cs : List Char) : List (List Char) :=
  let parts := splitOnChar '\n' cs
  let parts := if parts.getLast? = some [] then parts.dropLast else parts
  parts.map stripCR

/-- ASCII uppercasing of a character list, as Rust `str::to_uppercase` on
ASCII input. -/
def toUpperL (cs : List Char) : List Char := cs.map Char.toUpper

/-- Value of a decimal digit character. -/
def decDigit? (c : Char) : Option Nat :=
  if '0' ≤ c ∧ c ≤ '9' then some (c.toNat - 48) else none

/-- Value of a hexadecimal digit character (either case). -/
def hexDigit? (c : Char) : Option Nat :=
  if '0' ≤ c ∧ c ≤ '9' then some (c.toNat - 48)
  else if 'a' ≤ c ∧ c ≤ 'f' then some (c.toNat - 87)
  else if 'A' ≤ c ∧ c ≤ 'F' then some (c.toNat - 55)
  else none

/-- Accumulate digits left to right in the given base. -/
def parseDigitsAux (base : Nat) (digitFn : Char → Option Nat) :
    List Char → Nat → Option Nat
  | [], acc => some acc
  | c :: rest, acc =>
    match digitFn c with
    | some d => parseDigitsAux base digitFn rest (acc * base + d)
    | none => none

/-- Unsigned integer parse in the given base: optional leading plus sign, then
at least one digit; mirrors Rust `from_str` / `from_str_radix` for unsigned
integer types (range checks are applied by the callers, as in the source). -/
def parseUIntCore (base : Nat) (digitFn : Char → Option Nat)
    (cs : List Char) : Option Nat :=
  let cs := match cs with
    | '+' :: rest => rest
    | other => other
  match cs with
  | [] => none
  | _ => parseDigitsAux base digitFn cs 0

/-- Mirror of `assembler.rs` `parse_number`: trim; a `0x`/`0X` prefix selects
`u8::from_str_radix(_, 16)` (error if malformed or above 255); otherwise
`parse::<u16>()` (error if malformed or above 65535) followed by the explicit
0–255 range check. -/
def parse_number (s : List Char) : Except String Nat :=
  let s := trimL s
  if ("0x".toList.isPrefixOf s) ∨ ("0X".toList.isPrefixOf s) then
    match parseUIntCore 16 hexDigit? (s.drop 2) with
    | some v =>
      if v ≤ 255 then .ok v
      else .error ("Invalid hex number " ++ sq ++ String.mk s ++ sq)
    | none => .error ("Invalid hex number " ++ sq ++ String.mk s ++ sq)
  else
    match parseUIntCore 10 decDigit? s with
    | some v =>
      if v ≤ 65535 then
        if v > 255 then .error ("Number out of range (0..255): " ++ natRepr v)
        else .ok v
      else .error ("Invalid number " ++ sq ++ String.mk s ++ sq)
    | none => .error ("Invalid number " ++ sq ++ String.mk s ++ sq)

/-- Mirror of `assembler.rs` `parse_reg`: trim; require length at least 2 and
a leading `R` or `r`; parse the rest as `u8` (error if malformed or above
255). -/
def parse_reg (s : List Char) : Except String Nat :=
  let s := trimL s
  if 2 ≤ s.length ∧ (s.headD ' ' = 'R' ∨ s.headD ' ' = 'r') then
    match parseUIntCore 10 decDigit? s.tail with
    | some v =>
      if v ≤ 255 then .ok v
      else .error ("Invalid register " ++ sq ++ String.mk s ++ sq)
    | none => .error ("Invalid register " ++ sq ++ String.mk s ++ sq)
  else .error ("Invalid register " ++ sq ++ String.mk s ++ sq)

/-- Prefix an error message with its line number, mirroring the
`format!("line {}: {}", lineno, e)` wrappers in `assembler.rs`. -/
def mapLineErr (lineno : Nat) : Except String α → Except String α
  | .ok v => .ok v
  | .error e => .error ("line " ++ natRepr lineno ++ ": " ++ e)

/-- Mirror of `parse_reg_operand`. -/
def parse_reg_operand (op : List Char) (lineno : Nat) : Except String Nat :=
  mapLineErr lineno (parse_reg op)

/-- Comma-split operands, trimmed, empties dropped, as in the three
two-operand parse functions of `assembler.rs`. -/
def operandParts (ops : List Char) : List (List Char) :=
  ((splitOnChar ',' ops).map trimL).filter (fun p => p ≠ [])

/-- Mirror of `parse_two_operands_reg_imm`. -/
def parse_two_operands_reg_imm (ops : List Char) (lineno : Nat) :
    Except String (Nat × Nat) :=
  match operandParts ops with
  | [p0, p1] => do
    let r ← mapLineErr lineno (parse_reg p0)
    let imm ← mapLineErr lineno (parse_number p1)
    .ok (r, imm)
  | _ => .error ("line " ++ natRepr lineno ++ ": expected two operands")

/-- Mirror of `parse_two_operands_reg_reg`. -/
def parse_two_operands_reg_reg (ops : List Char) (lineno : Nat) :
    Except String (Nat × Nat) :=
  match operandParts ops with
  | [p0, p1] => do
    let a ← mapLineErr lineno (parse_reg p0)
    let b ← mapLineErr lineno (parse_reg p1)
    .ok (a, b)
  | _ => .error ("line " ++ natRepr lineno ++ ": expected two operands")

/-- Association-list view of the assembler's label `HashMap` (duplicates are
rejected before insertion, so lookup order is immaterial). -/
def lookupLabel : List (List Char × Nat) → List Char → Option Nat
  | [], _ => none
  | (k, v) :: rest, s => if k = s then some v else lookupLabel rest s

/-- Mirror of `parse_addr_operand`: trim; empty is an error; a known label
resolves to its recorded value cast `as u8` (truncation modulo 256);
otherwise the operand is parsed as a number. -/
def parse_addr_operand (op : List Char) (lineno : Nat)
    (labels : List (List Char × Nat)) : Except String Nat :=
  let s := trimL op
  if s = [] then .error ("line " ++ natRepr lineno ++ ": expected address or label")
  else
    match lookupLabel labels s with
    | some addr => .ok (addr % 256)
    | none => mapLineErr lineno (parse_number s)

/-- Mirror of `parse_two_operands_reg_addr`. -/
def parse_two_operands_reg_addr (ops : List Char) (lineno : Nat)
    (labels : List (List Char × Nat)) : Except String (Nat × Nat) :=
  match operandParts ops with
  | [p0, p1] => do
    let r ← mapLineErr lineno (parse_reg p0)
    let addr ← parse_addr_operand p1 lineno labels
    .ok (r, addr)
  | _ => .error ("line " ++ natRepr lineno ++ ": expected two operands")

/-- Mirror of `split_mnemonic_operands`: split at the first whitespace
character; the mnemonic is trimmed, the remainder is trimmed and then
stripped of leading commas. -/
def split_mnemonic_operands (line : List Char) : List Char × List Char :=
  let m := line.takeWhile (fun c => ¬ c.isWhitespace)
  let rest := line.dropWhile (fun c => ¬ c.isWhitespace)
  if rest = [] then (trimL line, [])
  else (trimL m, (trimL rest).dropWhile (fun c => c = ','))

/-- Mirror of `instruction_size`: encoded byte size per mnemonic, or `none`
for an unknown mnemonic. -/
def instruction_size (m : List Char) : Option Nat :=
  let u := toUpperL m
  if u = "LDI".toList then some 2
  else if u = "ADD".toList then some 2
  else if u = "SUB".toList then some 2
  else if u = "LOAD".toList then some 2
  else if u = "STORE".toList then some 2
  else if u = "JMP".toList then some 2
  else if u = "JZ".toList then some 2
  else if u = "OUT".toList then some 1
  else if u = "HLT".toList then some 1
  else if u = "NOP".toList then some 1
  else none

/-- Line normalization at the top of pass 1: trim, truncate at the first `;`
and trim, truncate at the first `#` and trim. -/
def normalizeLine (raw : List Char) : List Char :=
  let line := trimL raw
  let line := trimL (line.takeWhile (fun c => c ≠ ';'))
  trimL (line.takeWhile (fun c => c ≠ '#'))

/-- Modulus of Rust `usize` arithmetic; pass-1 program-counter advancement
uses `usize::wrapping_add`. -/
def usizeWrap (n : Nat) : Nat := n % 18446744073709551616

/-- Pass 1 of `assemble` (layout): walk the enumerated source lines carrying
the label table, the retained instruction lines (reversed), and the program
counter; errors abort with the 1-based source line number. -/
def pass1 : List (Nat × List Char) → List (List Char × Nat) →
    List (List Char) → Nat → Except String (List (List Char × Nat) × List (List Char))
  | [], labels, lines, _pc => .ok (labels, lines.reverse)
  | (lineno, raw) :: rest, labels, lines, pc =>
    let line := normalizeLine raw
    if line = [] then pass1 rest labels lines pc
    else if line.getLast? = some ':' then
      let label := trimL line.dropLast
      if label = [] then
        .error ("Empty label at line " ++ natRepr (lineno + 1))
      else if (lookupLabel labels label).isSome then
        .error ("Duplicate label " ++ sq ++ String.mk label ++ sq ++ " at line " ++ natRepr (lineno + 1))
      else pass1 rest ((label, pc) :: labels) lines pc
    else
      let up := toUpperL line
      if ("ORG ".toList.isPrefixOf up) ∨ up = "ORG".toList then
        match splitWs line with
        | _ :: p1 :: _ =>
          match parse_number p1 with
          | .ok addr => pass1 rest labels lines addr
          | .error e => .error ("line " ++ natRepr (lineno + 1) ++ ": " ++ e)
        | _ => .error ("ORG without address at line " ++ natRepr (lineno + 1))
      else
        let mnemonic := (split_mnemonic_operands line).1
        match instruction_size mnemonic with
        | none =>
          .error ("Unknown mnemonic " ++ sq ++ String.mk mnemonic ++ sq ++ " at line " ++ natRepr (lineno + 1))
        | some sz => pass1 rest labels (line :: lines) (usizeWrap (pc + sz))

/-- Pass 2 of `assemble` (encoding): replay the retained instruction lines,
enumerated from zero as in the source (so error messages use the index in
this retained list, not the original source line), emitting opcode and
operand bytes. -/
def encodeLines (labels : List (List Char × Nat)) :
    List (Nat × List Char) → Nat → Except String (List Nat)
  | [], _cur_pc => .ok []
  | (lineno, line) :: rest, cur_pc =>
    let (mnemonic, operands) := split_mnemonic_operands line
    let up := toUpperL mnemonic
    if up = "LDI".toList then
      match parse_two_operands_reg_imm operands (lineno + 1) with
      | .error e => .error e
      | .ok (r, imm) =>
        if r > 3 then
          .error ("Invalid register R" ++ natRepr r ++ " at line " ++ natRepr (lineno + 1))
        else
          match encodeLines labels rest (cur_pc + 2) with
          | .error e => .error e
          | .ok out => .ok ((0x10 ||| r) :: imm :: out)
    else if up = "ADD".toList then
      match parse_two_operands_reg_reg operands (lineno + 1) with
      | .error e => .error e
      | .ok (d, s) =>
        if d > 3 ∨ s > 3 then
          .error ("Invalid register at line " ++ natRepr (lineno + 1))
        else
          match encodeLines labels rest (cur_pc + 2) with
          | .error e => .error e
          | .ok out => .ok ((0x20 ||| d) :: s :: out)
    else if up = "SUB".toList then
      match parse_two_operands_reg_reg operands (lineno + 1) with
      | .error e => .error e
      | .ok (d, s) =>
        if d > 3 ∨ s > 3 then
          .error ("Invalid register at line " ++ natRepr (lineno + 1))
        else
          match encodeLines labels rest (cur_pc + 2) with
          | .error e => .error e
          | .ok out => .ok ((0x21 ||| d) :: s :: out)
    else if up = "LOAD".toList then
      match parse_two_operands_reg_addr operands (lineno + 1) labels with
      | .error e => .error e
      | .ok (d, addr) =>
        if d > 3 then
          .error ("Invalid register R" ++ natRepr d ++ " at line " ++ natRepr (lineno + 1))
        else
          match encodeLines labels rest (cur_pc + 2) with
          | .error e => .error e
          | .ok out => .ok ((0x30 ||| d) :: addr :: out)
    else if up = "STORE".toList then
      match parse_two_operands_reg_addr operands (lineno + 1) labels with
      | .error e => .error e
      | .ok (s, addr) =>
        if s > 3 then
          .error ("Invalid register R" ++ natRepr s ++ " at line " ++ natRepr (lineno + 1))
        else
          match encodeLines labels rest (cur_pc + 2) with
          | .error e => .error e
          | .ok out => .ok ((0x31 ||| s) :: addr :: out)
    else if up = "JMP".toList then
      match parse_addr_operand (trimL operands) (lineno + 1) labels with
      | .error e => .error e
      | .ok addr =>
        match encodeLines labels rest (cur_pc + 2) with
        | .error e => .error e
        | .ok out => .ok (0x40 :: addr :: out)
    else if up = "JZ".toList then
      match parse_two_operands_reg_addr operands (lineno + 1) labels with
      | .error e => .error e
      | .ok (r, addr) =>
        if r > 3 then
          .error ("Invalid register R" ++ natRepr r ++ " at line " ++ natRepr (lineno + 1))
        else
          match encodeLines labels rest (cur_pc + 2) with
          | .error e => .error e
          | .ok out => .ok ((0x41 ||| r) :: addr :: out)
    else if up = "OUT".toList then
      match parse_reg_operand (trimL operands) (lineno + 1) with
      | .error e => .error e
      | .ok r =>
        if r > 3 then
          .error ("Invalid register R" ++ natRepr r ++ " at line " ++ natRepr (lineno + 1))
        else
          match encodeLines labels rest (cur_pc + 1) with
          | .error e => .error e
          | .ok out => .ok ((0x50 ||| r) :: out)
    else if up = "HLT".toList then
      match encodeLines labels rest (cur_pc + 1) with
      | .error e => .error e
      | .ok out => .ok (0xFF :: out)
    else if up = "NOP".toList then
      match encodeLines labels rest (cur_pc + 1) with
      | .error e => .error e
      | .ok out => .ok (0x00 :: out)
    else
      .error ("Unknown mnemonic " ++ sq ++ String.mk mnemonic ++ sq ++ " at assembly pass line " ++ natRepr (lineno + 1))

/-- Mirror of `assembler.rs` `assemble`: pass 1 (labels and layout) then
pass 2 (encoding). -/
def assemble (src : String) : Except String (List Nat) :=
  match pass1 (rustLines src.toList).enum [] [] 0 with
  | .error e => .error e
  | .ok (labels, lines) => encodeLines labels lines.enum 0

/-! CPU model (src/cpu.rs, src/memory.rs). The 256-byte memory and the
four-entry register file are modelled as functions `Nat → Nat`; reads and
writes apply the same modular addressing as `Memory::read` / `Memory::write`. -/

/-- CPU state: mirror of the `CPU` struct of `cpu.rs` (the attached device
list is modelled separately, as a count of devices plus an explicit
notification trace, since devices only observe cycle values). -/
structure CPU where
  regs : Nat → Nat
  pc : Nat
  z : Bool
  mem : Nat → Nat
  cycles : Nat
  halted : Bool

/-- Mirror of `CPU::new`: zeroed registers and memory, program counter 0,
zero flag clear, cycle counter 0, not halted. -/
def CPU.new : CPU :=
  { regs := fun _ => 0, pc := 0, z := false, mem := fun _ => 0,
    cycles := 0, halted := false }

/-- Mirror of `Memory::read`: modular addressing over the 256-byte array. -/
def memRead (m : Nat → Nat) (addr : Nat) : Nat := m (addr % 256)

/-- Mirror of `Memory::write`: modular addressing over the 256-byte array. -/
def memWrite (m : Nat → Nat) (addr v : Nat) : Nat → Nat :=
  fun i => if i = addr % 256 then v else m i

/-- Mirror of `Memory::write_bytes`: write a byte run starting at
`addr % 256`, wrapping past the end of memory. -/
def write_bytes (m : Nat → Nat) (addr : Nat) : List Nat → (Nat → Nat)
  | [] => m
  | b :: rest => write_bytes (memWrite m addr b) (addr % 256 + 1) rest

/-- Mirror of `CPU::load`: write the program into memory with wraparound and
set the program counter to the load address. -/
def CPU.load (c : CPU) (program : List Nat) (addr : Nat) : CPU :=
  { c with mem := write_bytes c.mem addr program, pc := addr }

/-- Point update of the register file. -/
def regsUpdate (f : Nat → Nat) (r v : Nat) : Nat → Nat :=
  fun i => if i = r then v else f i

/-- Wrapping 8-bit addition (`u8::overflowing_add`). -/
def wrapAdd8 (a b : Nat) : Nat := (a + b) % 256

/-- Wrapping 8-bit subtraction (`u8::overflowing_sub`) for byte-valued
arguments. -/
def wrapSub8 (a b : Nat) : Nat := (a + 256 - b % 256) % 256

/-- Decode and execute one instruction given the already-fetched opcode byte;
`c` is the state after the opcode fetch. Mirror of the `match opcode` block
of `CPU::step_instruction`, including its arm order: the `SUB`, `STORE`, and
`JZ` arms compare `op & 0xF0` against values with a nonzero low nibble. -/
def exec (op : Nat) (c : CPU) : CPU × Nat :=
  if op &&& 0xF0 = 0x10 then
    let reg := op &&& 0x03
    let imm := memRead c.mem c.pc
    let c := { c with pc := (c.pc + 1) % 256 }
    let regs := regsUpdate c.regs reg imm
    ({ c with regs := regs, z := regs reg == 0 }, 2)
  else if op &&& 0xF0 = 0x20 then
    let dest := op &&& 0x03
    let src := (memRead c.mem c.pc) &&& 0x03
    let c := { c with pc := (c.pc + 1) % 256 }
    let res := wrapAdd8 (c.regs dest) (c.regs src)
    ({ c with regs := regsUpdate c.regs dest res, z := res == 0 }, 3)
  else if op &&& 0xF0 = 0x21 then
    let dest := op &&& 0x03
    let src := (memRead c.mem c.pc) &&& 0x03
    let c := { c with pc := (c.pc + 1) % 256 }
    let res := wrapSub8 (c.regs dest) (c.regs src)
    ({ c with regs := regsUpdate c.regs dest res, z := res == 0 }, 3)
  else if op &&& 0xF0 = 0x30 then
    let dest := op &&& 0x03
    let addr := memRead c.mem c.pc
    let c := { c with pc := (c.pc + 1) % 256 }
    let regs := regsUpdate c.regs dest (memRead c.mem addr)
    ({ c with regs := regs, z := regs dest == 0 }, 4)
  else if op &&& 0xF0 = 0x31 then
    let src := op &&& 0x03
    let addr := memRead c.mem c.pc
    let c := { c with pc := (c.pc + 1) % 256 }
    ({ c with mem := memWrite c.mem addr (c.regs src) }, 4)
  else if op = 0x40 then
    let addr := memRead c.mem c.pc
    let c := { c with pc := (c.pc + 1) % 256 }
    ({ c with pc := addr % 256 }, 3)
  else if op &&& 0xF0 = 0x41 then
    let reg := op &&& 0x03
    let addr := memRead c.mem c.pc
    let c := { c with pc := (c.pc + 1) % 256 }
    (if c.regs reg = 0 then { c with pc := addr % 256 } else c, 3)
  else if op &&& 0xF0 = 0x50 then
    (c, 4)
  else if op = 0xFF then
    ({ c with halted := true }, 1)
  else
    (c, 1)

/-- Mirror of `CPU::step_instruction`: if halted, do nothing and return 0
cycles; otherwise fetch one opcode byte (advancing the program counter with
wraparound) and dispatch. Returns the new state and the cycle cost. -/
def step_instruction (c : CPU) : CPU × Nat :=
  if c.halted then (c, 0)
  else exec (memRead c.mem c.pc) { c with pc := (c.pc + 1) % 256 }

/-- Mirror of the per-cycle device loop
`for _ in 0..cycles { self.cycles += 1; for dev in devices { dev.tick(self.cycles) } }`:
given the device count and the current cycle counter, run `k` iterations and
return the final counter together with the notification trace, one event
`(cycle value, device index)` per callback invocation, in invocation order. -/
def tickLoop (numDevs : Nat) (cycles : Nat) : Nat → Nat × List (Nat × Nat)
  | 0 => (cycles, [])
  | k + 1 =>
    let c1 := cycles + 1
    let evs := (List.range numDevs).map fun j => (c1, j)
    let (cf, rest) := tickLoop numDevs c1 k
    (cf, evs ++ rest)

/-- Mirror of `CPU::step_and_tick_instruction`: if halted return 0 cycles and
no notifications; otherwise execute one instruction and run the per-cycle
device loop once per consumed cycle. -/
def step_and_tick_instruction (numDevs : Nat) (c : CPU) :
    CPU × Nat × List (Nat × Nat) :=
  if c.halted then (c, 0, [])
  else
    let (c1, k) := step_instruction c
    let (cf, evs) := tickLoop numDevs c1.cycles k
    ({ c1 with cycles := cf }, k, evs)

/-- Fuel-bounded unfolding of `CPU::run` (the Rust loop runs until the halted
flag is set; each iteration is one instruction step followed by the per-cycle
counter advancement, with no devices attached). -/
def run_fuel : Nat → CPU → CPU
  | 0, c => c
  | n + 1, c =>
    if c.halted then c
    else run_fuel n (step_and_tick_instruction 0 c).1

/-! General lemmas about the execution engine. -/

/-- No decode arm touches the cycle counter (`step_instruction` documents
that it does not advance the counter; the counter moves only in the tick
loops). -/
lemma exec_cycles (op : Nat) (c : CPU) : (exec op c).1.cycles = c.cycles := by
  unfold exec
  split_ifs <;> simp [apply_ite]

/-- A single decode-execute step never changes the cycle counter. -/
lemma step_instruction_cycles (c : CPU) :
    (step_instruction c).1.cycles = c.cycles := by
  unfold step_instruction
  split_ifs with h
  · rfl
  · exact exec_cycles _ _

/-- Binding over a successor-mapped range shifts the function argument. -/
lemma bind_map_succ {α : Type} (g : Nat → List α) (l : List Nat) :
    (l.map Nat.succ).flatMap g = l.flatMap (fun x => g (x + 1)) := by
  induction l with
  | nil => rfl
  | cons a l ih => simp [ih]

/-- Closed form of the per-cycle device loop: `k` iterations advance the
counter from `s` to `s + k` and notify each of the `n` devices once per
iteration, in device order, with the new absolute counter value. -/
lemma tickLoop_spec (n : Nat) : ∀ (k s : Nat),
    tickLoop n s k =
      (s + k,
       (List.range k).flatMap fun i => (List.range n).map fun j => (s + i + 1, j)) := by
  intro k
  induction k with
  | zero => intro s; simp [tickLoop]
  | succ k ih =>
    intro s
    simp only [tickLoop, ih (s + 1)]
    refine Prod.ext (by omega) ?_
    simp only [List.range_succ_eq_map, List.flatMap_cons, bind_map_succ]
    simp [Nat.add_assoc, Nat.add_comm, Nat.add_left_comm]

/-- The halt flag produced by a decode arm: `true` exactly on the `0xFF`
opcode (when the machine was running). -/
lemma exec_halted_iff (op : Nat) (c : CPU) (h : c.halted = false) :
    ((exec op c).1.halted = true) ↔ op = 255 := by
  unfold exec
  split_ifs with h1 h2 h3 h4 h5 h6 h7 h8 h9
  · exact iff_of_false (by simp [h]) (fun e => absurd h1 (by subst e; decide))
  · exact iff_of_false (by simp [h]) (fun e => absurd h2 (by subst e; decide))
  · exact iff_of_false (by simp [h]) (fun e => absurd h3 (by subst e; decide))
  · exact iff_of_false (by simp [h]) (fun e => absurd h4 (by subst e; decide))
  · exact iff_of_false (by simp [h]) (fun e => absurd h5 (by subst e; decide))
  · exact iff_of_false (by simp [h]) (fun e => absurd h6 (by subst e; decide))
  · exact iff_of_false (by simp [apply_ite, h]) (fun e => absurd h7 (by subst e; decide))
  · exact iff_of_false (by simp [h]) (fun e => absurd h8 (by subst e; decide))
  · exact iff_of_true (by simp) h9
  · exact iff_of_false (by simp [h]) h9

/-- On a running machine, a step halts the machine exactly when the fetched
opcode byte is `0xFF`. -/
lemma step_halted_iff (c : CPU) (h : c.halted = false) :
    ((step_instruction c).1.halted = true) ↔ memRead c.mem c.pc = 255 := by
  unfold step_instruction
  rw [if_neg (by simp [h])]
  exact exec_halted_iff _ _ (by simpa using h)

/-- Once halted, the bounded run loop is a fixed point. -/
lemma run_fuel_halted (m : Nat) (c : CPU) (h : c.halted = true) :
    run_fuel m c = c := by
  cases m <;> simp [run_fuel, h]

/-! Claim theorems. -/

/-- Claim C1 (code bug): the claim says a single step of an assembled
subtract instruction performs a wrapping register subtraction. On the code,
`SUB R0, R0` assembles to opcode `0x21`, but the CPU's subtract arm matches
`(op & 0xF0) == 0x21`, which is never true (the mask clears the low nibble),
so the opcode is caught by the add arm `(op & 0xF0) == 0x20` with destination
`0x21 & 3 = 1`: after `LDI R0, 5` then `SUB R0, R0`, register 0 keeps 5,
register 1 becomes 5, and the zero flag is false, where the claim requires
register 0 to become 0 with the zero flag set. -/
theorem sub_semantics_bug :
    assemble "LDI R0, 5\nSUB R0, R0" = .ok [0x10, 0x05, 0x21, 0x00]
    ∧ (step_instruction (step_instruction
        (CPU.new.load [0x10, 0x05, 0x21, 0x00] 0)).1).1.regs 0 = 5
    ∧ (step_instruction (step_instruction
        (CPU.new.load [0x10, 0x05, 0x21, 0x00] 0)).1).1.regs 1 = 5
    ∧ (step_instruction (step_instruction
        (CPU.new.load [0x10, 0x05, 0x21, 0x00] 0)).1).1.z = false :=
  ⟨rfl, rfl, rfl, rfl⟩

/-- Claim C2 (code bug): the claim says every mnemonic that pass 1 sizes at
2 bytes is decoded in a single step that advances the program counter by 2
(jumps aside). Pass 1 assigns `JZ` size 2 and the assembler emits
`0x41 | reg`, but the CPU's jump-if-zero arm `(op & 0xF0) == 0x41` is
unsatisfiable, so the opcode falls to the default 1-cycle no-operation arm:
stepping `JZ R1, 7` from a fresh CPU advances the program counter by 1 only
(and, register 1 being zero, the claim would even require a taken jump to 7). -/
theorem jz_size_bug :
    instruction_size "JZ".toList = some 2
    ∧ assemble "JZ R1, 7" = .ok [0x41, 0x07]
    ∧ (step_instruction (CPU.new.load [0x41, 0x07] 0)).1.pc = 1
    ∧ (step_instruction (CPU.new.load [0x41, 0x07] 0)).2 = 1 :=
  ⟨rfl, rfl, rfl, rfl⟩

/-- Claim C3 (code bug): the claim says distinct (mnemonic, register) pairs
always get distinct opcode bytes, each register family occupying 4 values
disjoint from the others. The subtract family base `0x21` overlaps the add
family `0x20..0x23`: `ADD R1, R0` and `SUB R0, R0` assemble to the identical
byte sequence `0x21 0x00`. -/
theorem opcode_collision_bug :
    assemble "ADD R1, R0" = .ok [0x21, 0x00]
    ∧ assemble "SUB R0, R0" = .ok [0x21, 0x00] :=
  ⟨rfl, rfl⟩

/-- Claim C4 counterexample: a memory-load step returns 4 cycles, not the 3
the claim states. -/
theorem mem_cycles_counterexample :
    (step_instruction (CPU.new.load [0x30, 0x00] 0)).2 = 4
    ∧ ¬ (step_instruction (CPU.new.load [0x30, 0x00] 0)).2 = 3 :=
  ⟨rfl, by decide⟩

/-- Claim C4 as amended: for every non-halted CPU state whose next opcode
byte has high nibble 3 (all memory-load encodings `0x30..0x33` and all
memory-store encodings `0x31 | reg`), the single-instruction step returns 4
cycles, matching the source comments `(4 cycles)`. -/
theorem mem_access_cycles (c : CPU) (h : c.halted = false)
    (hop : memRead c.mem c.pc &&& 0xF0 = 0x30) :
    (step_instruction c).2 = 4 := by
  unfold step_instruction exec
  rw [if_neg (by simp [h])]
  simp only [hop]
  norm_num

/-- Witness for the amended claim C4 at a concrete memory-load instruction. -/
theorem mem_access_cycles_witness :
    (step_instruction (CPU.new.load [0x30, 0x00] 0)).2 = 4 :=
  mem_access_cycles (CPU.new.load [0x30, 0x00] 0) rfl rfl

/-- Claim C5 (code bug): the claim says a memory-store step leaves the zero
flag unchanged. A store-encoded instruction (`STORE R1, 5` emits `0x31`,
since `0x31 | 1 = 0x31`) is decoded by the memory-load arm
`(op & 0xF0) == 0x30` (the store arm `(op & 0xF0) == 0x31` is
unsatisfiable): after `LDI R1, 9` sets the zero flag false, the store step
flips the zero flag to true, overwrites register 1 with `mem[5] = 0`, and
writes nothing to memory address 5. -/
theorem store_zero_flag_bug :
    assemble "LDI R1, 9\nSTORE R1, 5" = .ok [0x11, 0x09, 0x31, 0x05]
    ∧ (step_instruction (step_instruction
        (CPU.new.load [0x11, 0x09, 0x31, 0x05] 0)).1).1.z = true
    ∧ (step_instruction (step_instruction
        (CPU.new.load [0x11, 0x09, 0x31, 0x05] 0)).1).1.regs 1 = 0
    ∧ (step_instruction (step_instruction
        (CPU.new.load [0x11, 0x09, 0x31, 0x05] 0)).1).1.mem 5 = 0 :=
  ⟨rfl, rfl, rfl, rfl⟩

/-- Claim C6 (code bug): the claim says assembly errors carry the 1-based
line number in the original source text, counting comment and blank lines.
Pass 2 re-enumerates only the retained instruction lines, so a bad register
on source line 2 (after a comment line) is reported at line 1, and an
out-of-range literal on source line 3 (after a blank line) is reported at
line 2. The rejections themselves (register index above 3, literal above
255) do occur and produce no byte output. -/
theorem error_line_number_bug :
    assemble "; c\nLDI R4, 1" = .error "Invalid register R4 at line 1"
    ∧ assemble "LDI R0, 1\n\nLDI R0, 300"
        = .error "line 2: Number out of range (0..255): 300" :=
  ⟨rfl, rfl⟩

/-- Claim C7: the five-line example program assembles to exactly
`10 05 11 0A 20 01 50 FF`; loading those bytes at address 0 and running
until the halt instruction (5 steps reach the halted fixed point of the run
loop) leaves register 0 at 15, the zero flag false, the cycle counter at 12,
and the CPU halted. -/
theorem example_program_runs :
    assemble "LDI R0, 5\nLDI R1, 10\nADD R0, R1\nOUT R0\nHLT"
      = .ok [0x10, 0x05, 0x11, 0x0A, 0x20, 0x01, 0x50, 0xFF]
    ∧ (run_fuel 5 (CPU.new.load [0x10, 0x05, 0x11, 0x0A, 0x20, 0x01, 0x50, 0xFF] 0)).regs 0 = 15
    ∧ (run_fuel 5 (CPU.new.load [0x10, 0x05, 0x11, 0x0A, 0x20, 0x01, 0x50, 0xFF] 0)).z = false
    ∧ (run_fuel 5 (CPU.new.load [0x10, 0x05, 0x11, 0x0A, 0x20, 0x01, 0x50, 0xFF] 0)).cycles = 12
    ∧ (run_fuel 5 (CPU.new.load [0x10, 0x05, 0x11, 0x0A, 0x20, 0x01, 0x50, 0xFF] 0)).halted = true
    ∧ ∀ m : Nat,
        run_fuel m (run_fuel 5 (CPU.new.load [0x10, 0x05, 0x11, 0x0A, 0x20, 0x01, 0x50, 0xFF] 0))
          = run_fuel 5 (CPU.new.load [0x10, 0x05, 0x11, 0x0A, 0x20, 0x01, 0x50, 0xFF] 0) :=
  ⟨rfl, rfl, rfl, rfl, rfl, fun m => run_fuel_halted m _ rfl⟩

/-- Claim C8: a ticking step on a non-halted CPU with `n` attached devices
that executes an instruction costing `C` cycles ends with the cycle counter
advanced by exactly `C`, produces the notification trace in which each of
the `C` unit increments is followed by one callback per device, in
attachment order, carrying the new absolute counter value, and never
decreases the counter. -/
theorem cycle_ticking (n : Nat) (c : CPU) (h : c.halted = false) :
    (step_and_tick_instruction n c).1.cycles
        = c.cycles + (step_and_tick_instruction n c).2.1
    ∧ (step_and_tick_instruction n c).2.2
        = (List.range (step_and_tick_instruction n c).2.1).flatMap
            (fun i => (List.range n).map fun j => (c.cycles + i + 1, j))
    ∧ c.cycles ≤ (step_and_tick_instruction n c).1.cycles := by
  have hcyc := step_instruction_cycles c
  unfold step_and_tick_instruction
  rw [if_neg (by simp [h])]
  rcases hsi : step_instruction c with ⟨c1, k⟩
  rw [hsi] at hcyc
  have hc1 : c1.cycles = c.cycles := by simpa using hcyc
  simp only [tickLoop_spec]
  refine ⟨by simp [hc1], by simp [hc1], by simp [hc1]⟩

/-- Witness for claim C8: one device, a fresh CPU about to execute the
1-cycle no-operation opcode. -/
theorem cycle_ticking_witness :
    (step_and_tick_instruction 1 (CPU.new.load [0x00] 0)).1.cycles
        = (CPU.new.load [0x00] 0).cycles + (step_and_tick_instruction 1 (CPU.new.load [0x00] 0)).2.1
    ∧ (step_and_tick_instruction 1 (CPU.new.load [0x00] 0)).2.2
        = (List.range (step_and_tick_instruction 1 (CPU.new.load [0x00] 0)).2.1).flatMap
            (fun i => (List.range 1).map fun j => ((CPU.new.load [0x00] 0).cycles + i + 1, j))
    ∧ (CPU.new.load [0x00] 0).cycles ≤ (step_and_tick_instruction 1 (CPU.new.load [0x00] 0)).1.cycles :=
  cycle_ticking 1 (CPU.new.load [0x00] 0) rfl

/-- Claim C9: a fresh CPU is not halted; a halted CPU's step returns 0
cycles and changes nothing at all; and on a running CPU a step sets the
halted flag exactly when the fetched opcode byte is the halt opcode `0xFF`
(so no step ever clears the flag, and only the halt instruction sets it). -/
theorem halt_is_terminal :
    CPU.new.halted = false
    ∧ (∀ c : CPU, c.halted = true → step_instruction c = (c, 0))
    ∧ (∀ c : CPU, c.halted = false →
        (((step_instruction c).1.halted = true) ↔ memRead c.mem c.pc = 255)) := by
  refine ⟨rfl, ?_, ?_⟩
  · intro c h
    unfold step_instruction
    rw [if_pos h]
  · intro c h
    exact step_halted_iff c h

/-- Witness for claim C9: the halted-step clause at a concrete halted CPU,
and the halt-iff clause at a fresh CPU loaded with the halt opcode. -/
theorem halt_is_terminal_witness :
    step_instruction { CPU.new with halted := true } = ({ CPU.new with halted := true }, 0)
    ∧ (((step_instruction (CPU.new.load [0xFF] 0)).1.halted = true)
        ↔ memRead (CPU.new.load [0xFF] 0).mem (CPU.new.load [0xFF] 0).pc = 255) :=
  ⟨halt_is_terminal.2.1 _ rfl, halt_is_terminal.2.2 _ rfl⟩

/-- Claim C10: pass 2 resolves an address operand naming a known label by
casting the recorded pass-1 program-counter value `as u8`, i.e. truncating
it modulo 256, with no error; concretely, a label recorded at
program-counter 256 (reached via `ORG 255` plus a 1-byte instruction) is
emitted as address byte 0. -/
theorem label_truncation (labels : List (List Char × Nat)) (op : List Char)
    (lineno v : Nat) (hlook : lookupLabel labels (trimL op) = some v)
    (hne : trimL op ≠ []) :
    parse_addr_operand op lineno labels = .ok (v % 256)
    ∧ assemble "ORG 255\nNOP\nL:\nJMP L" = .ok [0x00, 0x40, 0x00] := by
  constructor
  · unfold parse_addr_operand
    rw [if_neg hne, hlook]
  · rfl

/-- Witness for claim C10: a label table recording `L` at 300 resolves an
operand `L` to the truncated byte 44. -/
theorem label_truncation_witness :
    parse_addr_operand "L".toList 1 [("L".toList, 300)] = .ok 44 := by
  have h := label_truncation [("L".toList, 300)] "L".toList 1 300 rfl (by decide)
  simpa using h.1

end ToySim
